import Mathlib

/-!
Verification development for `src/build_tools/fileset_tool.py` of the
repository TheRock-lite.

The file shallowly embeds the parts of `fileset_tool.py` that the claims
are about:

* `evaluate_optional` (source lines 29-46), over a small model `PyValue` of
  the Python values that can appear in a TOML descriptor field;
* the `ComponentDefaults` class with its process-wide registry `ALL`
  (source lines 49-64) and the module-level registry initialization
  (source lines 68-124);
* `do_artifact` (source lines 143-229), the artifact composer;
* `do_artifact_archive` (source lines 232-258), the archive builder.

The class `PatternMatcher` is imported by the source from
`_therock_utils.pattern_match`, a module of this repository that is not
under `src/`.  Where its behavior matters it is modelled from the spec
(see the definitions whose doc comments start with `Modelled from the
spec:`); everything else is transcribed from the source.

Filesystem effects are modelled by explicit parameters: an existence
predicate `String → Bool` for `Path.exists`, enumeration lists for
directory walks, and output values (copy operations, manifest text,
archive entries) instead of writes to disk.
-/

/-- Model of the Python values that a TOML descriptor field can hold in
this program: `None`, booleans, integers, strings and (possibly nested)
lists. -/
inductive PyValue where
  | none : PyValue
  | pybool : Bool → PyValue
  | pyint : Int → PyValue
  | pystr : String → PyValue
  | pylist : List PyValue → PyValue

/-- Python truthiness, `bool(v)`: `None`, `False`, `0`, the empty string and
the empty list are falsy, everything else modelled here is truthy. -/
def pyBool : PyValue → Bool
  | PyValue.none => false
  | PyValue.pybool b => b
  | PyValue.pyint n => n != 0
  | PyValue.pystr s => s != ""
  | PyValue.pylist vs => !vs.isEmpty

/-- Single-quote character, used by the Python `repr` of strings. -/
def pyQuote : String := String.singleton (Char.ofNat 39)

mutual

/-- Python `repr(v)` for the modelled values (string escaping inside
`repr` of a string is elided, which is irrelevant here: `repr` output of
a list always contains brackets and so never equals a platform name). -/
def pyRepr : PyValue → String
  | PyValue.none => "None"
  | PyValue.pybool true => "True"
  | PyValue.pybool false => "False"
  | PyValue.pyint n => toString n
  | PyValue.pystr s => pyQuote ++ s ++ pyQuote
  | PyValue.pylist vs => "[" ++ pyReprList vs ++ "]"

/-- Comma-separated `repr` of the elements of a Python list. -/
def pyReprList : List PyValue → String
  | [] => ""
  | [v] => pyRepr v
  | v :: rest => pyRepr v ++ ", " ++ pyReprList rest

end

/-- Python `str(v)`: the identity on strings, `repr` on everything else
modelled here. -/
def pyStr : PyValue → String
  | PyValue.pystr s => s
  | v => pyRepr v

/-- Model of the Python builtin `str.lower()`, mapping the ASCII lower-casing
over the characters of the string (platform names are ASCII). -/
def pyLower (s : String) : String := String.mk (s.data.map Char.toLower)

/-- Transcription of `evaluate_optional` (source lines 29-46).  The
parameter `system` models the ambient `platform.system()`.  `None` gives
`False`; a string is wrapped into a one-element list; a list returns
whether some element, converted with `str` and lowercased, equals the
lowercased system name; any other value is returned through `bool`. -/
def evaluate_optional (system : String) : PyValue → Bool
  | PyValue.none => false
  | PyValue.pystr s =>
      [PyValue.pystr s].any (fun v => pyLower (pyStr v) == pyLower system)
  | PyValue.pylist vs =>
      vs.any (fun v => pyLower (pyStr v) == pyLower system)
  | PyValue.pybool b => pyBool (PyValue.pybool b)
  | PyValue.pyint n => pyBool (PyValue.pyint n)

/-- Transcription of the `ComponentDefaults` class (source lines 49-60):
`self.includes`/`self.excludes` hold the two pattern lists. -/
structure ComponentDefaults where
  includes : List String
  excludes : List String
deriving DecidableEq, Repr

/-- Model of the class-level registry `ComponentDefaults.ALL`, a dict from
component name to instance; the list keeps dict insertion order. -/
abbrev Registry := List (String × ComponentDefaults)

/-- Transcription of `ComponentDefaults.__init__` (source lines 54-60) as a
state transition on the registry: the instance is built from the arguments,
and for a non-empty name it is registered, raising `KeyError` when the name
is already a key of `ALL`. -/
def ComponentDefaults.initRaw (reg : Registry) (name : String)
    (includes excludes : List String) :
    Except String (ComponentDefaults × Registry) :=
  let cd : ComponentDefaults := ⟨includes, excludes⟩
  if name = "" then
    Except.ok (cd, reg)
  else
    match reg.lookup name with
    | some _ => Except.error ("KeyError: ComponentDefaults " ++ name ++ " already defined")
    | Option.none => Except.ok (cd, reg ++ [(name, cd)])

/-- Transcription of `ComponentDefaults.get` (source lines 62-64):
`ALL.get(name) or ComponentDefaults(name)`.  A registered instance is a
truthy Python object and is returned with the registry unchanged;
otherwise a fresh `ComponentDefaults(name)` is constructed, which cannot
raise because the name was just found absent (the error arm below is
unreachable). -/
def ComponentDefaults.get (reg : Registry) (name : String) :
    ComponentDefaults × Registry :=
  match reg.lookup name with
  | some cd => (cd, reg)
  | Option.none =>
    match ComponentDefaults.initRaw reg name [] [] with
    | Except.ok res => res
    | Except.error _ => (⟨[], []⟩, reg)

/-- In-place replacement of the registered instance of a name, used to
model a Python mutation of a registered object. -/
def updateCD (reg : Registry) (name : String) (cd : ComponentDefaults) :
    Registry :=
  reg.map (fun p => if p.1 = name then (name, cd) else p)

/-- Transcription of one module-level line of the form
`ComponentDefaults.get(dst).excludes.extend(ComponentDefaults.get(src).includes)`
(source lines 116-124).  Python evaluates `get(dst)` first, then
`get(src)`, then mutates the `dst` object in place. -/
def extendLine (reg : Registry) (dst src : String) : Registry :=
  let dstRes := ComponentDefaults.get reg dst
  let srcRes := ComponentDefaults.get dstRes.2 src
  updateCD srcRes.2 dst ⟨dstRes.1.includes, dstRes.1.excludes ++ srcRes.1.includes⟩

/-- Transcription of the module-level registry initialization (source
lines 68-124): the five built-in `ComponentDefaults` constructions
followed by the nine cross-layering `extend` lines. -/
def moduleInit : Except String Registry := do
  let r1 ← ComponentDefaults.initRaw [] "dbg" [".build-id/**/*.debug"] []
  let r2 ← ComponentDefaults.initRaw r1.2 "dev"
    ["**/*.a", "**/*.lib", "**/cmake/**", "**/include/**",
     "**/share/modulefiles/**", "**/pkgconfig/**"] []
  let r3 ← ComponentDefaults.initRaw r2.2 "lib"
    ["**/*.dll", "**/*.dylib", "**/*.dylib.*", "**/*.so", "**/*.so.*"] []
  let r4 ← ComponentDefaults.initRaw r3.2 "run" [] []
  let r5 ← ComponentDefaults.initRaw r4.2 "doc" ["**/share/doc/**"] []
  let r6 := extendLine r5.2 "dev" "lib"
  let r7 := extendLine r6 "dev" "run"
  let r8 := extendLine r7 "dev" "doc"
  let r9 := extendLine r8 "lib" "dev"
  let r10 := extendLine r9 "lib" "run"
  let r11 := extendLine r10 "lib" "doc"
  let r12 := extendLine r11 "run" "dev"
  let r13 := extendLine r12 "run" "lib"
  let r14 := extendLine r13 "run" "doc"
  pure r14

/-- State of `ComponentDefaults.ALL` after the module finished loading. -/
def ALL_final : Registry :=
  match moduleInit with
  | Except.ok r => r
  | Except.error _ => []

/-- Include list of a component of the finished registry. -/
def finalIncludes (name : String) : List String :=
  ((ALL_final.lookup name).getD ⟨[], []⟩).includes

/-- Exclude list of a component of the finished registry. -/
def finalExcludes (name : String) : List String :=
  ((ALL_final.lookup name).getD ⟨[], []⟩).excludes

/-- Helper: looking a key up in an appended association list when the left
part does not contain it. -/
theorem lookup_append_of_none {β : Type} (reg : List (String × β)) (l : List (String × β))
    (name : String) (h : reg.lookup name = Option.none) :
    (reg ++ l).lookup name = l.lookup name := by
  induction reg with
  | nil => rfl
  | cons p rest ih =>
    match p with
    | (k, v) =>
      simp only [List.lookup, List.cons_append] at h ⊢
      cases hk : (name == k) with
      | true => rw [hk] at h; simp at h
      | false => rw [hk] at h; exact ih h

/-- C2: after the module-level registry initialization, the exclude list of
each of the components dev, lib and run contains every pattern of the
include lists of the other two and of doc (the cross-layering invariant of
the built-in registry). -/
theorem c2_cross_layering :
    ALL_final.map Prod.fst = ["dbg", "dev", "lib", "run", "doc"] ∧
    (finalIncludes "lib" ++ finalIncludes "run" ++ finalIncludes "doc").all
      (fun p => (finalExcludes "dev").contains p) = true ∧
    (finalIncludes "dev" ++ finalIncludes "run" ++ finalIncludes "doc").all
      (fun p => (finalExcludes "lib").contains p) = true ∧
    (finalIncludes "dev" ++ finalIncludes "lib" ++ finalIncludes "doc").all
      (fun p => (finalExcludes "run").contains p) = true := by
  refine ⟨by decide, by decide, by decide, by decide⟩

/-- Formalisation of the claim wording "a string or list of strings"; used
only to state at which inputs claim C6 misclassifies the code. -/
def claimStrOrListOfStr : PyValue → Bool
  | PyValue.pystr _ => true
  | PyValue.pylist vs =>
      vs.all (fun v => match v with | PyValue.pystr _ => true | _ => false)
  | _ => false

/-- C6, counterexample: the value `[1]` is truthy, is not `None`, and is
neither a string nor a list of strings, so the claim says
`evaluate_optional` returns `True` on it; the code takes the list branch,
compares `str(1) = "1"` against the platform name, and returns `False`
(here on platform `Linux`). -/
theorem c6_counterexample :
    claimStrOrListOfStr (PyValue.pylist [PyValue.pyint 1]) = false ∧
    PyValue.pylist [PyValue.pyint 1] ≠ PyValue.none ∧
    pyBool (PyValue.pylist [PyValue.pyint 1]) = true ∧
    evaluate_optional "Linux" (PyValue.pylist [PyValue.pyint 1]) = false := by
  refine ⟨by decide, fun h => PyValue.noConfusion h, by decide, by decide⟩

/-- C6, amended: `evaluate_optional` returns `False` on `None` and on every
falsy value; on a string it returns `True` iff the lowercased string equals
the lowercased platform name; on a list it returns `True` iff some element,
converted with `str` and lowercased, equals the lowercased platform name;
and every other truthy value (neither `None`, a string, nor a list) yields
`True`.  The platform name is assumed non-empty. -/
theorem c6_amended (system : String) (v : PyValue)
    (hsys : pyLower system ≠ "") :
    (pyBool v = false → evaluate_optional system v = false) ∧
    (∀ s, v = PyValue.pystr s →
      (evaluate_optional system v = true ↔ pyLower s = pyLower system)) ∧
    (∀ vs, v = PyValue.pylist vs →
      (evaluate_optional system v = true ↔
        ∃ x ∈ vs, pyLower (pyStr x) = pyLower system)) ∧
    ((v ≠ PyValue.none ∧ (∀ s, v ≠ PyValue.pystr s) ∧
        (∀ vs, v ≠ PyValue.pylist vs) ∧ pyBool v = true) →
      evaluate_optional system v = true) := by
  refine ⟨?_, ?_, ?_, ?_⟩
  · intro h
    cases v with
    | none => rfl
    | pybool b => simpa [evaluate_optional, pyBool] using h
    | pyint n => simpa [evaluate_optional, pyBool] using h
    | pystr s =>
      have hs : s = "" := by simpa [pyBool] using h
      subst hs
      have h0 : pyLower (pyStr (PyValue.pystr "")) = "" := rfl
      simp [evaluate_optional, h0, beq_eq_false_iff_ne]
      exact fun h1 => hsys h1.symm
    | pylist vs =>
      have hs : vs = [] := by simpa [pyBool] using h
      subst hs
      simp [evaluate_optional]
  · intro s hv
    subst hv
    simp [evaluate_optional, pyStr, beq_iff_eq]
  · intro vs hv
    subst hv
    simp [evaluate_optional, List.any_eq_true, beq_iff_eq]
  · intro h
    match v, h with
    | PyValue.pybool b, ⟨_, _, _, h4⟩ => simpa [evaluate_optional, pyBool] using h4
    | PyValue.pyint n, ⟨_, _, _, h4⟩ => simpa [evaluate_optional, pyBool] using h4
    | PyValue.none, ⟨h1, _, _, _⟩ => exact absurd rfl h1
    | PyValue.pystr s, ⟨_, h2, _, _⟩ => exact absurd rfl (h2 s)
    | PyValue.pylist vs, ⟨_, _, h3, _⟩ => exact absurd rfl (h3 vs)

/-- Witness for `c6_amended` at the platform `Linux` and the descriptor
value `"linux"`. -/
theorem c6_amended_witness :
    evaluate_optional "Linux" (PyValue.pystr "linux") = true :=
  ((c6_amended "Linux" (PyValue.pystr "linux") (by decide)).2.1 "linux" rfl).mpr
    (by decide)

/-- C8: constructing a `ComponentDefaults` with a non-empty name raises a
`KeyError` when the name is already registered, and otherwise records the
new instance in the registry (so the first construction under a name
wins). -/
theorem c8_register (reg : Registry) (name : String)
    (includes excludes : List String) (hname : name ≠ "") :
    ((reg.lookup name).isSome = true →
      ∃ msg, ComponentDefaults.initRaw reg name includes excludes =
        Except.error msg) ∧
    (reg.lookup name = Option.none →
      ComponentDefaults.initRaw reg name includes excludes =
        Except.ok (⟨includes, excludes⟩, reg ++ [(name, ⟨includes, excludes⟩)])) := by
  constructor
  · intro h
    unfold ComponentDefaults.initRaw
    rw [if_neg hname]
    cases hl : reg.lookup name with
    | some cd => exact ⟨_, rfl⟩
    | none => rw [hl] at h; simp at h
  · intro h
    unfold ComponentDefaults.initRaw
    rw [if_neg hname, h]

/-- Witness for `c8_register`: re-registering the name `x` errors, and a
first registration of `x` records the instance. -/
theorem c8_register_witness :
    (∃ msg, ComponentDefaults.initRaw [("x", ⟨[], []⟩)] "x" [] [] =
      Except.error msg) ∧
    ComponentDefaults.initRaw [] "x" ["a"] ["b"] =
      Except.ok (⟨["a"], ["b"]⟩, [("x", ⟨["a"], ["b"]⟩)]) :=
  ⟨(c8_register [("x", ⟨[], []⟩)] "x" [] [] (by decide)).1 (by decide),
   (c8_register [] "x" ["a"] ["b"] (by decide)).2 (by decide)⟩

/-- C9, counterexample: for the empty name, which is never a registry key,
`ComponentDefaults.get` constructs a fresh instance but registers nothing
(the registry stays empty), and a subsequent explicit construction with
the same name succeeds instead of raising - contradicting the claim for
the name `""`. -/
theorem c9_counterexample :
    (ComponentDefaults.get [] "").2 = [] ∧
    ComponentDefaults.initRaw ((ComponentDefaults.get [] "").2) "" [] [] =
      Except.ok (⟨[], []⟩, []) := by
  exact ⟨rfl, rfl⟩

/-- C9, amended: for every non-empty name absent from the registry,
`ComponentDefaults.get` constructs and registers a new empty instance, so
a subsequent explicit construction under that name raises; for a name
already registered, `get` returns the existing instance and leaves the
registry unchanged; for the empty name, `get` leaves the registry
unchanged. -/
theorem c9_get (reg : Registry) (name : String)
    (includes excludes : List String) :
    ((name ≠ "" ∧ reg.lookup name = Option.none) →
      ComponentDefaults.get reg name = (⟨[], []⟩, reg ++ [(name, ⟨[], []⟩)]) ∧
      ∃ msg, ComponentDefaults.initRaw (reg ++ [(name, ⟨[], []⟩)]) name
          includes excludes = Except.error msg) ∧
    (∀ cd, reg.lookup name = some cd →
      ComponentDefaults.get reg name = (cd, reg)) ∧
    (ComponentDefaults.get reg "").2 = reg := by
  refine ⟨?_, ?_, ?_⟩
  · intro ⟨hname, habs⟩
    have hget : ComponentDefaults.get reg name =
        (⟨[], []⟩, reg ++ [(name, ⟨[], []⟩)]) := by
      unfold ComponentDefaults.get
      rw [habs]
      unfold ComponentDefaults.initRaw
      rw [if_neg hname, habs]
    refine ⟨hget, ?_⟩
    have hl : (reg ++ [(name, (⟨[], []⟩ : ComponentDefaults))]).lookup name =
        some ⟨[], []⟩ := by
      rw [lookup_append_of_none reg _ name habs]
      simp [List.lookup]
    unfold ComponentDefaults.initRaw
    rw [if_neg hname, hl]
    exact ⟨_, rfl⟩
  · intro cd h
    unfold ComponentDefaults.get
    rw [h]
  · cases hl : reg.lookup "" with
    | some cd => unfold ComponentDefaults.get; rw [hl]
    | none =>
      unfold ComponentDefaults.get
      rw [hl]
      unfold ComponentDefaults.initRaw
      simp

/-- Witness for `c9_get`: getting the absent name `x` on the empty registry
registers it, and constructing `ComponentDefaults x` afterwards raises. -/
theorem c9_get_witness :
    ComponentDefaults.get [] "x" = (⟨[], []⟩, [("x", ⟨[], []⟩)]) ∧
    ∃ msg, ComponentDefaults.initRaw [("x", ⟨[], []⟩)] "x" ["i"] ["e"] =
      Except.error msg :=
  (c9_get [] "x" ["i"] ["e"]).1 ⟨by decide, rfl⟩

/-- Archive entry as produced by `arc.add(path, arcname=..., recursive=False)`
(source lines 243 and 254): the name stored in the archive and the source
path of the added file. -/
structure Entry where
  arcname : String
  srcpath : String
deriving DecidableEq, Repr

/-- Helper for `pySplitlines`, walking the character list with the current
(reversed) line as accumulator. -/
def pySplitlinesAux : List Char → List Char → List String
  | [], [] => []
  | [], acc => [String.mk acc.reverse]
  | c :: rest, acc =>
    if c = '\n' then String.mk acc.reverse :: pySplitlinesAux rest []
    else pySplitlinesAux rest (c :: acc)

/-- Model of the Python builtin `str.splitlines()` for strings whose only
line terminator is a newline character (manifests are written by
`do_artifact` with newline separators only): splits at newlines and drops
a final empty piece produced by a trailing newline. -/
def pySplitlines (s : String) : List String := pySplitlinesAux s.data []

/-- Model of one artifact directory as read by `do_artifact_archive`:
its filesystem path, the content of `artifact_manifest.txt` (`Option.none`
when the file is absent, in which case `read_text` raises), and the
directory walk of each manifested subdirectory.

The `subtree` field is Modelled from the spec: the source enumerates a
subdirectory with `PatternMatcher` from `_therock_utils.pattern_match`,
which is not under `src/`.  Per the spec (section 3, MatchResult and
section 4.4 step 3b) `pm.all` is the include-everything enumeration of
every file under the subdirectory, in the natural filesystem walk order,
which is not required to be sorted; `subtree rp` is `Option.none` when the
subdirectory `rp` does not exist and otherwise the list of walked
file paths relative to it, in walk order. -/
structure ArtifactDir where
  path : String
  manifestText : Option String
  subtree : String → Option (List String)

/-- Manifest entry of one artifact as appended by source line 243:
`arc.add(manifest_path, arcname=manifest_path.name, recursive=False)`. -/
def manifestEntry (a : ArtifactDir) : Entry :=
  ⟨"artifact_manifest.txt", a.path ++ "/artifact_manifest.txt"⟩

/-- Entries appended for one manifest line by the loop body of source
lines 244-254: a blank line contributes nothing, a nonexistent
subdirectory contributes nothing, and otherwise every enumerated file is
added under the name `relpath ++ "/" ++ subpath`. -/
def payloadFor (a : ArtifactDir) (relpath : String) : List Entry :=
  if relpath = "" then []
  else
    match a.subtree relpath with
    | Option.none => []
    | some files =>
      files.map (fun subpath =>
        ⟨relpath ++ "/" ++ subpath, a.path ++ "/" ++ relpath ++ "/" ++ subpath⟩)

/-- Transcription of the artifact loop of `do_artifact_archive` (source
lines 239-254), threading the archive entry list in the order of the
`arc.add` calls: for each artifact directory, read the manifest (raising
when it is absent), append the manifest entry first, then append the
payload entries of each manifest line. -/
def archiveGo : List ArtifactDir → List Entry → Except String (List Entry)
  | [], acc => Except.ok acc
  | a :: rest, acc =>
    match a.manifestText with
    | Option.none =>
      Except.error ("FileNotFoundError: " ++ a.path ++ "/artifact_manifest.txt")
    | some text =>
      let acc1 := acc ++ [manifestEntry a]
      let acc2 := (pySplitlines text).foldl
        (fun acc relpath => acc ++ payloadFor a relpath) acc1
      archiveGo rest acc2

/-- Transcription of `do_artifact_archive` (source lines 232-258) at the
level of the archive entry sequence: the entries are appended artifact by
artifact in the order given on the command line.  The compressed archive
bytes are a function of this entry sequence, so two runs agree on the
archive iff they agree on the sequence. -/
def do_artifact_archive (artifacts : List ArtifactDir) :
    Except String (List Entry) :=
  archiveGo artifacts []

/-- Concatenation of the lists produced for each element. -/
def concatMap {α β : Type} (g : α → List β) : List α → List β
  | [] => []
  | x :: xs => g x ++ concatMap g xs

/-- Entries contributed by a single artifact directory: its manifest entry
followed by the payload entries of its manifest lines in order. -/
def archiveArtifactEntries (a : ArtifactDir) : List Entry :=
  manifestEntry a ::
    concatMap (payloadFor a) (pySplitlines (a.manifestText.getD ""))

/-- Helper: a left fold that appends per-element lists is a concatenation. -/
theorem foldl_append_concatMap {α β : Type} (g : α → List β) :
    ∀ (l : List α) (acc : List β),
      l.foldl (fun acc x => acc ++ g x) acc = acc ++ concatMap g l := by
  intro l
  induction l with
  | nil => intro acc; simp [concatMap]
  | cons x xs ih =>
    intro acc
    simp [List.foldl_cons, concatMap, ih (acc ++ g x), List.append_assoc]

/-- Helper: a successful run of the archive loop appends exactly the
per-artifact entry blocks, in order. -/
theorem archiveGo_ok :
    ∀ (arts : List ArtifactDir) (acc entries : List Entry),
      archiveGo arts acc = Except.ok entries →
      entries = acc ++ concatMap archiveArtifactEntries arts := by
  intro arts
  induction arts with
  | nil =>
    intro acc entries h
    simp [archiveGo] at h
    simp [concatMap, h]
  | cons a rest ih =>
    intro acc entries h
    cases hm : a.manifestText with
    | none => rw [archiveGo, hm] at h; exact absurd h (by simp)
    | some text =>
      rw [archiveGo, hm] at h
      simp only at h
      have h2 := ih _ _ h
      rw [foldl_append_concatMap] at h2
      rw [h2]
      unfold archiveArtifactEntries
      simp [concatMap, hm, List.append_assoc]

deriving instance DecidableEq for Except

/-- Helper: membership in a concatenation. -/
theorem mem_concatMap {α β : Type} (g : α → List β) (y : β) :
    ∀ l : List α, y ∈ concatMap g l ↔ ∃ x ∈ l, y ∈ g x := by
  intro l
  induction l with
  | nil => simp [concatMap]
  | cons x xs ih => simp [concatMap, ih]

/-- Helper: a payload archive name contains a slash and so is never the
manifest name. -/
theorem payload_name_ne_manifest (rp sp : String) :
    rp ++ "/" ++ sp ≠ "artifact_manifest.txt" := by
  intro h
  have h1 : '/' ∈ (rp ++ "/" ++ sp).data := by simp [String.data_append]
  rw [h] at h1
  exact absurd h1 (by decide)

/-- C3: every successfully produced archive consists of the per-artifact
blocks in input order, each block putting the manifest entry of the
artifact before all of its payload entries; in particular the first entry
of a nonempty archive is a manifest file. -/
theorem c3_manifest_first (arts : List ArtifactDir) (entries : List Entry)
    (h1 : arts ≠ []) (h2 : do_artifact_archive arts = Except.ok entries) :
    entries = concatMap archiveArtifactEntries arts ∧
    entries.head?.map Entry.arcname = some "artifact_manifest.txt" := by
  have he := archiveGo_ok arts [] entries h2
  rw [List.nil_append] at he
  refine ⟨he, ?_⟩
  cases arts with
  | nil => exact absurd rfl h1
  | cons a rest =>
    rw [he]
    simp [concatMap, archiveArtifactEntries, manifestEntry]

/-- Witness artifact directory with a manifest listing one existing
subdirectory, a blank line and a missing subdirectory. -/
def w1 : ArtifactDir :=
  ⟨"A", some "s\n\nmissing\n",
   fun rp => if rp = "s" then some ["f.txt", "g.txt"] else Option.none⟩

/-- Witness artifact directory with a single-line manifest. -/
def w2 : ArtifactDir :=
  ⟨"B", some "t\n", fun rp => if rp = "t" then some ["h.txt"] else Option.none⟩

/-- Witness for `c3_manifest_first` on a concrete two-artifact archive. -/
theorem c3_manifest_first_witness :
    ([⟨"artifact_manifest.txt", "A/artifact_manifest.txt"⟩,
      ⟨"s/f.txt", "A/s/f.txt"⟩, ⟨"s/g.txt", "A/s/g.txt"⟩,
      ⟨"artifact_manifest.txt", "B/artifact_manifest.txt"⟩,
      ⟨"t/h.txt", "B/t/h.txt"⟩] : List Entry).head?.map Entry.arcname =
      some "artifact_manifest.txt" :=
  (c3_manifest_first [w1, w2]
    [⟨"artifact_manifest.txt", "A/artifact_manifest.txt"⟩,
     ⟨"s/f.txt", "A/s/f.txt"⟩, ⟨"s/g.txt", "A/s/g.txt"⟩,
     ⟨"artifact_manifest.txt", "B/artifact_manifest.txt"⟩,
     ⟨"t/h.txt", "B/t/h.txt"⟩]
    (List.cons_ne_nil _ _) (by decide)).2

/-- C7: archiving a single artifact directory yields the manifest entry
followed, manifest line by manifest line, by the payload entries; a blank
manifest line contributes nothing, a listed subdirectory that does not
exist contributes nothing, and an existing subdirectory contributes every
enumerated file under the archive name `relpath/subpath`. -/
theorem c7_payload (a : ArtifactDir) (text : String)
    (h : a.manifestText = some text) :
    do_artifact_archive [a] =
      Except.ok (manifestEntry a :: concatMap (payloadFor a) (pySplitlines text)) ∧
    payloadFor a "" = [] ∧
    (∀ rp, a.subtree rp = Option.none → payloadFor a rp = []) ∧
    (∀ rp files, rp ≠ "" → a.subtree rp = some files →
      payloadFor a rp = files.map (fun subpath =>
        ⟨rp ++ "/" ++ subpath, a.path ++ "/" ++ rp ++ "/" ++ subpath⟩)) := by
  refine ⟨?_, by simp [payloadFor], ?_, ?_⟩
  · show archiveGo [a] [] = _
    rw [archiveGo, h]
    simp only [archiveGo, foldl_append_concatMap]
    rw [List.nil_append]
    rfl
  · intro rp hrp
    by_cases he : rp = ""
    · simp [payloadFor, he]
    · simp [payloadFor, he, hrp]
  · intro rp files h1 h2
    simp [payloadFor, h1, h2]

/-- Witness for `c7_payload` on the concrete artifact `w1`, whose manifest
has an existing subdirectory, a blank line and a missing subdirectory. -/
theorem c7_payload_witness :
    do_artifact_archive [w1] = Except.ok
      [⟨"artifact_manifest.txt", "A/artifact_manifest.txt"⟩,
       ⟨"s/f.txt", "A/s/f.txt"⟩, ⟨"s/g.txt", "A/s/g.txt"⟩] ∧
    payloadFor w1 "" = [] ∧
    payloadFor w1 "missing" = [] := by
  have h := c7_payload w1 "s\n\nmissing\n" rfl
  exact ⟨h.1.trans (by decide), h.2.1, h.2.2.1 "missing" (by decide)⟩

/-- Helper: the number of manifest-named entries a successful archive run
holds equals the number of archived artifact directories. -/
theorem count_manifest_entries :
    ∀ arts : List ArtifactDir,
      ((concatMap archiveArtifactEntries arts).map Entry.arcname).count
        "artifact_manifest.txt" = arts.length := by
  intro arts
  induction arts with
  | nil => simp [concatMap]
  | cons a rest ih =>
    have hzero :
        ((concatMap (payloadFor a)
            (pySplitlines (a.manifestText.getD ""))).map Entry.arcname).count
          "artifact_manifest.txt" = 0 := by
      rw [List.count_eq_zero]
      intro hmem
      rw [List.mem_map] at hmem
      obtain ⟨e, he, hname⟩ := hmem
      rw [mem_concatMap] at he
      obtain ⟨rp, _, hrp⟩ := he
      rw [payloadFor] at hrp
      by_cases hblank : rp = ""
      · rw [if_pos hblank] at hrp
        exact absurd hrp (by simp)
      · rw [if_neg hblank] at hrp
        cases hsub : a.subtree rp with
        | none => rw [hsub] at hrp; exact absurd hrp (by simp)
        | some files =>
          rw [hsub] at hrp
          rw [List.mem_map] at hrp
          obtain ⟨sp, _, hesp⟩ := hrp
          rw [← hesp] at hname
          exact payload_name_ne_manifest rp sp hname
    simp only [concatMap, archiveArtifactEntries, List.map_append, List.map_cons,
      List.count_append, List.count_cons, List.length_cons, ih, hzero]
    simp [manifestEntry, Nat.add_comm]

/-- C10: a successful archive run stores one entry named
`artifact_manifest.txt` per artifact directory, with no per-artifact
prefix, so archiving two or more artifact directories produces duplicate
entry names. -/
theorem c10_manifest_name_collision (arts : List ArtifactDir)
    (entries : List Entry)
    (h : do_artifact_archive arts = Except.ok entries) :
    (entries.map Entry.arcname).count "artifact_manifest.txt" = arts.length ∧
    (2 ≤ arts.length → ¬ (entries.map Entry.arcname).Nodup) := by
  have he := archiveGo_ok arts [] entries h
  rw [List.nil_append] at he
  subst he
  refine ⟨count_manifest_entries arts, ?_⟩
  intro hlen hnd
  have hle := List.nodup_iff_count_le_one.mp hnd "artifact_manifest.txt"
  rw [count_manifest_entries arts] at hle
  omega

/-- Witness for `c10_manifest_name_collision` on a concrete two-artifact
archive: its entry names are not pairwise distinct. -/
theorem c10_manifest_name_collision_witness :
    ¬ (([⟨"artifact_manifest.txt", "A/artifact_manifest.txt"⟩,
        ⟨"s/f.txt", "A/s/f.txt"⟩, ⟨"s/g.txt", "A/s/g.txt"⟩,
        ⟨"artifact_manifest.txt", "B/artifact_manifest.txt"⟩,
        ⟨"t/h.txt", "B/t/h.txt"⟩] : List Entry).map Entry.arcname).Nodup :=
  (c10_manifest_name_collision [w1, w2]
    [⟨"artifact_manifest.txt", "A/artifact_manifest.txt"⟩,
     ⟨"s/f.txt", "A/s/f.txt"⟩, ⟨"s/g.txt", "A/s/g.txt"⟩,
     ⟨"artifact_manifest.txt", "B/artifact_manifest.txt"⟩,
     ⟨"t/h.txt", "B/t/h.txt"⟩]
    (by decide)).2 (by decide)

/-- Run of the archiver where the filesystem walk of subdirectory `s`
enumerates `a.txt` before `b.txt`. -/
def orderRun1 : ArtifactDir :=
  ⟨"A", some "s\n",
   fun rp => if rp = "s" then some ["a.txt", "b.txt"] else Option.none⟩

/-- Run of the archiver over the same artifact directory (same path, same
manifest, same set of payload files) where the filesystem walk enumerates
`b.txt` before `a.txt`. -/
def orderRun2 : ArtifactDir :=
  ⟨"A", some "s\n",
   fun rp => if rp = "s" then some ["b.txt", "a.txt"] else Option.none⟩

/-- C1: `do_artifact_archive` does not impose a deterministic traversal
order.  The two runs `orderRun1` and `orderRun2` archive the same artifact
directory - same manifest, same set of files under the single manifested
subdirectory, differing only in the incidental filesystem enumeration
order - yet produce different archive entry sequences, hence different
archive bytes and hashes.  The payload entries follow the unsorted
enumeration order; no lexical sort is applied (source lines 250-254). -/
theorem c1_enum_order_dependence :
    orderRun1.path = orderRun2.path ∧
    orderRun1.manifestText = orderRun2.manifestText ∧
    List.Perm ((orderRun1.subtree "s").getD []) ((orderRun2.subtree "s").getD []) ∧
    do_artifact_archive [orderRun1] = Except.ok
      [⟨"artifact_manifest.txt", "A/artifact_manifest.txt"⟩,
       ⟨"s/a.txt", "A/s/a.txt"⟩, ⟨"s/b.txt", "A/s/b.txt"⟩] ∧
    do_artifact_archive [orderRun2] = Except.ok
      [⟨"artifact_manifest.txt", "A/artifact_manifest.txt"⟩,
       ⟨"s/b.txt", "A/s/b.txt"⟩, ⟨"s/a.txt", "A/s/a.txt"⟩] ∧
    do_artifact_archive [orderRun1] ≠ do_artifact_archive [orderRun2] := by
  refine ⟨rfl, rfl, by decide, by decide, by decide, by decide⟩

/-- Model of the Python builtin `sep.join(parts)`. -/
def pyJoin (sep : String) : List String → String
  | [] => ""
  | [a] => a
  | a :: rest => a ++ sep ++ pyJoin sep rest

/-- Manifest file content written by source line 229:
`"\n".join(all_basedir_relpaths) + "\n"`. -/
def manifest_content (relpaths : List String) : String :=
  pyJoin "\n" relpaths ++ "\n"

/-- Modelled from the spec: the manifest format of spec sections 3 and 4.3
step 4, "the ordered list of contributing relative paths (one per line,
trailing newline)" - each path immediately followed by one newline,
nothing else.  Stated separately from `manifest_content` (the transcription
of the source) so the two can be compared. -/
def spec_manifest_content : List String → String
  | [] => ""
  | a :: rest => a ++ "\n" ++ spec_manifest_content rest

/-- Helper: on a nonempty path list the source manifest content agrees
with the spec manifest format. -/
theorem manifest_content_eq_spec :
    ∀ l : List String, l ≠ [] → manifest_content l = spec_manifest_content l := by
  intro l
  induction l with
  | nil => intro h; exact absurd rfl h
  | cons a rest ih =>
    intro _
    cases rest with
    | nil =>
      show pyJoin "\n" [a] ++ "\n" = a ++ "\n" ++ spec_manifest_content []
      rw [pyJoin, spec_manifest_content, String.append_empty]
    | cons b r2 =>
      show pyJoin "\n" (a :: b :: r2) ++ "\n" = _
      rw [pyJoin, spec_manifest_content, String.append_assoc, String.append_assoc]
      rw [← manifest_content, ih (List.cons_ne_nil b r2), ← String.append_assoc]
      exact List.cons_ne_nil b r2

/-- One base-directory record of a component descriptor (source docstring
lines 152-164): the five optional TOML keys, `Option.none` when the key is
absent.  The TOML key `include` is called `include_patterns` here because
`include` is a Lean keyword. -/
structure BasedirRecord where
  default_patterns : Option PyValue
  include_patterns : Option PyValue
  exclude : Option PyValue
  force_include : Option PyValue
  optional : Option PyValue

/-- Record with every descriptor key absent. -/
def emptyRec : BasedirRecord :=
  ⟨Option.none, Option.none, Option.none, Option.none, Option.none⟩

/-- Transcription of `_dup_list_or_str` (source lines 276-281): a falsy
value gives the empty list, a string is wrapped, a list is copied, and
`list(v)` on any other truthy value raises `TypeError`. -/
def _dup_list_or_str (v : PyValue) : Except String (List PyValue) :=
  if pyBool v = false then Except.ok []
  else
    match v with
    | PyValue.pystr s => Except.ok [PyValue.pystr s]
    | PyValue.pylist vs => Except.ok vs
    | _ => Except.error "TypeError: object is not iterable"

/-- Component defaults used by `do_artifact` (source lines 205 and 212):
`ComponentDefaults.ALL.get(component_name, ComponentDefaults())`, a plain
dict read with a fresh unregistered empty instance as default. -/
def defaultsFor (component_name : String) : ComponentDefaults :=
  (ALL_final.lookup component_name).getD ⟨[], []⟩

/-- Modelled from the spec: the observable output of building a
`PatternMatcher` over one base directory and copying its matches (source
lines 215-225).  `PatternMatcher` is not under `src/`; per spec sections
3 and 4.2 it produces an ordered mapping from matched relative path to
source path, so a matcher is modelled as a function from the include,
exclude and force-include pattern lists and the base directory to that
list of (relative path, source path) pairs.  Claims C4 and C5 hold for
every such function. -/
abbrev Matcher :=
  List PyValue → List PyValue → List PyValue → String → List (String × String)

/-- Transcription of the base-directory loop of `do_artifact` (source
lines 190-225), threading the contributed relative paths and the copy
operations (destination path relative to the output directory, source
path).  An optional record whose base directory does not exist is skipped
entirely; otherwise the relative path is recorded, the three pattern
lists are built (merging component defaults when `default_patterns` is
truthy) and the matches are copied under the prefix `relpath ++ "/"`. -/
def artifactLoop (matcher : Matcher) (fsExists : String → Bool) (sys : String)
    (component_name root_dir : String) :
    List (String × BasedirRecord) → List String → List (String × String) →
    Except String (List String × List (String × String))
  | [], relpaths, copies => Except.ok (relpaths, copies)
  | (rp, rec) :: rest, relpaths, copies =>
    let use_default := pyBool (rec.default_patterns.getD (PyValue.pybool true))
    let basedir := root_dir ++ "/" ++ rp
    match evaluate_optional sys (rec.optional.getD PyValue.none) && !(fsExists basedir) with
    | true => artifactLoop matcher fsExists sys component_name root_dir rest relpaths copies
    | false =>
      match _dup_list_or_str (rec.force_include.getD PyValue.none) with
      | Except.error e => Except.error e
      | Except.ok force_includes =>
        match _dup_list_or_str (rec.include_patterns.getD PyValue.none) with
        | Except.error e => Except.error e
        | Except.ok includes0 =>
          let includes := includes0 ++
            (if use_default then (defaultsFor component_name).includes.map PyValue.pystr else [])
          match _dup_list_or_str (rec.exclude.getD PyValue.none) with
          | Except.error e => Except.error e
          | Except.ok excludes0 =>
            let excludes := excludes0 ++
              (if use_default then (defaultsFor component_name).excludes.map PyValue.pystr else [])
            let newCopies := (matcher includes excludes force_includes basedir).map
              (fun pr => (rp ++ "/" ++ pr.1, pr.2))
            artifactLoop matcher fsExists sys component_name root_dir rest
              (relpaths ++ [rp]) (copies ++ newCopies)

/-- Transcription of `do_artifact` (source lines 143-229) at the level of
its observable output: the copy operations into the freshly recreated
output directory and the text written to `output_dir/artifact_manifest.txt`.
The descriptor is the `components` table; a missing component name is
caught (`KeyError`, source lines 183-187) and treated as the empty
record. -/
def do_artifact (matcher : Matcher) (fsExists : String → Bool) (sys : String)
    (descriptor : List (String × List (String × BasedirRecord)))
    (component_name root_dir : String) :
    Except String (List (String × String) × String) :=
  let component_record := (descriptor.lookup component_name).getD []
  match artifactLoop matcher fsExists sys component_name root_dir
      component_record [] [] with
  | Except.error e => Except.error e
  | Except.ok (relpaths, copies) =>
    Except.ok (copies, manifest_content relpaths)

/-- Relative paths of the records that contribute to the artifact: every
record except the optional ones whose base directory does not exist, in
descriptor order. -/
def contributing (fsExists : String → Bool) (sys : String) (root_dir : String) :
    List (String × BasedirRecord) → List String
  | [] => []
  | (rp, rec) :: rest =>
    match evaluate_optional sys (rec.optional.getD PyValue.none) &&
        !(fsExists (root_dir ++ "/" ++ rp)) with
    | true => contributing fsExists sys root_dir rest
    | false => rp :: contributing fsExists sys root_dir rest

/-- Helper: a successful run of the base-directory loop produces exactly
the contributing relative paths, appended to the accumulator. -/
theorem artifactLoop_ok_relpaths (matcher : Matcher) (fsExists : String → Bool)
    (sys component_name root_dir : String) :
    ∀ (records : List (String × BasedirRecord)) (relpaths : List String)
      (copies : List (String × String)) (rps : List String)
      (cps : List (String × String)),
      artifactLoop matcher fsExists sys component_name root_dir records relpaths copies =
        Except.ok (rps, cps) →
      rps = relpaths ++ contributing fsExists sys root_dir records := by
  intro records
  induction records with
  | nil =>
    intro relpaths copies rps cps h
    simp [artifactLoop] at h
    simp [contributing, h.1]
  | cons pr rest ih =>
    obtain ⟨rp, rec⟩ := pr
    intro relpaths copies rps cps h
    simp only [artifactLoop] at h
    rw [contributing]
    cases hc : evaluate_optional sys (rec.optional.getD PyValue.none) &&
        !(fsExists (root_dir ++ "/" ++ rp)) with
    | true =>
      rw [hc] at h
      exact ih relpaths copies rps cps h
    | false =>
      rw [hc] at h
      cases hf : _dup_list_or_str (rec.force_include.getD PyValue.none) with
      | error e => rw [hf] at h; exact absurd h (by simp)
      | ok fi =>
        rw [hf] at h
        cases hi : _dup_list_or_str (rec.include_patterns.getD PyValue.none) with
        | error e => rw [hi] at h; exact absurd h (by simp)
        | ok inc0 =>
          rw [hi] at h
          cases hx : _dup_list_or_str (rec.exclude.getD PyValue.none) with
          | error e => rw [hx] at h; exact absurd h (by simp)
          | ok exc0 =>
            rw [hx] at h
            have h2 := ih (relpaths ++ [rp]) _ rps cps h
            rw [h2, List.append_assoc]
            rfl

/-- Helper: an optional record whose base directory does not exist can be
removed from the record list without changing the loop result. -/
theorem artifactLoop_skip (matcher : Matcher) (fsExists : String → Bool)
    (sys component_name root_dir rp : String) (rec : BasedirRecord)
    (hopt : evaluate_optional sys (rec.optional.getD PyValue.none) = true)
    (hex : fsExists (root_dir ++ "/" ++ rp) = false) :
    ∀ (l1 l2 : List (String × BasedirRecord)) (relpaths : List String)
      (copies : List (String × String)),
      artifactLoop matcher fsExists sys component_name root_dir
          (l1 ++ (rp, rec) :: l2) relpaths copies =
        artifactLoop matcher fsExists sys component_name root_dir
          (l1 ++ l2) relpaths copies := by
  intro l1
  induction l1 with
  | nil =>
    intro l2 relpaths copies
    rw [List.nil_append, List.nil_append]
    simp only [artifactLoop]
    rw [hopt, hex]
    rfl
  | cons q l1 ih =>
    obtain ⟨qr, qrec⟩ := q
    intro l2 relpaths copies
    rw [List.cons_append, List.cons_append]
    simp only [artifactLoop]
    cases hc : evaluate_optional sys (qrec.optional.getD PyValue.none) &&
        !(fsExists (root_dir ++ "/" ++ qr)) with
    | true => exact ih l2 relpaths copies
    | false =>
      cases hf : _dup_list_or_str (qrec.force_include.getD PyValue.none) with
      | error e => rfl
      | ok fi =>
        cases hi : _dup_list_or_str (qrec.include_patterns.getD PyValue.none) with
        | error e => rfl
        | ok inc0 =>
          cases hx : _dup_list_or_str (qrec.exclude.getD PyValue.none) with
          | error e => rfl
          | ok exc0 => exact ih l2 _ _

/-- Helper: the counterpart of `artifactLoop_skip` for the contributing
path list. -/
theorem contributing_skip (fsExists : String → Bool) (sys root_dir rp : String)
    (rec : BasedirRecord)
    (hopt : evaluate_optional sys (rec.optional.getD PyValue.none) = true)
    (hex : fsExists (root_dir ++ "/" ++ rp) = false) :
    ∀ (l1 l2 : List (String × BasedirRecord)),
      contributing fsExists sys root_dir (l1 ++ (rp, rec) :: l2) =
        contributing fsExists sys root_dir (l1 ++ l2) := by
  intro l1
  induction l1 with
  | nil =>
    intro l2
    rw [List.nil_append, List.nil_append, contributing, hopt, hex]
    rfl
  | cons q l1 ih =>
    obtain ⟨qr, qrec⟩ := q
    intro l2
    rw [List.cons_append, List.cons_append, contributing, contributing]
    cases hc : evaluate_optional sys (qrec.optional.getD PyValue.none) &&
        !(fsExists (root_dir ++ "/" ++ qr)) with
    | true => exact ih l2
    | false => rw [ih l2]

/-- Helper: every contributing relative path is a key of the record
list. -/
theorem contributing_subset_keys (fsExists : String → Bool)
    (sys root_dir : String) :
    ∀ (records : List (String × BasedirRecord)) (x : String),
      x ∈ contributing fsExists sys root_dir records →
      x ∈ records.map Prod.fst := by
  intro records
  induction records with
  | nil => intro x h; exact absurd h (by simp [contributing])
  | cons pr rest ih =>
    obtain ⟨rp, rec⟩ := pr
    intro x h
    rw [contributing] at h
    cases hc : evaluate_optional sys (rec.optional.getD PyValue.none) &&
        !(fsExists (root_dir ++ "/" ++ rp)) with
    | true =>
      rw [hc] at h
      exact List.mem_cons_of_mem _ (ih x h)
    | false =>
      rw [hc] at h
      rcases List.mem_cons.mp h with h1 | h2
      · exact h1 ▸ List.mem_cons_self _ _
      · exact List.mem_cons_of_mem _ (ih x h2)

/-- C4, counterexample: when the component name is absent from the
descriptor, `do_artifact` succeeds with no copies, but the manifest it
writes is a single newline character - one blank line - and not the empty
file that zero paths in the one-per-line format would give. -/
theorem c4_counterexample :
    do_artifact (fun _ _ _ _ => []) (fun _ => false) "Linux" [] "c" "/r" =
      Except.ok ([], "\n") ∧
    spec_manifest_content [] = "" ∧
    ("\n" : String) ≠ "" := by
  refine ⟨rfl, rfl, by decide⟩

/-- C4, amended: a successful `do_artifact` writes the manifest
`"\n".join(paths) + "\n"` over the contributing base-directory relative
paths in descriptor order; when at least one path contributes this is
exactly the one-path-per-line, newline-terminated format of the spec; and
when the component name is absent from the descriptor the operation still
succeeds, produces no copies, and writes a manifest consisting of a
single newline (a blank line, treated as empty by the archive reader). -/
theorem c4_manifest (matcher : Matcher) (fsExists : String → Bool) (sys : String)
    (descriptor : List (String × List (String × BasedirRecord)))
    (component_name root_dir : String) :
    (∀ copies mtext,
      do_artifact matcher fsExists sys descriptor component_name root_dir =
        Except.ok (copies, mtext) →
      mtext = manifest_content (contributing fsExists sys root_dir
        ((descriptor.lookup component_name).getD [])) ∧
      (contributing fsExists sys root_dir
          ((descriptor.lookup component_name).getD []) ≠ [] →
        mtext = spec_manifest_content (contributing fsExists sys root_dir
          ((descriptor.lookup component_name).getD [])))) ∧
    (descriptor.lookup component_name = Option.none →
      do_artifact matcher fsExists sys descriptor component_name root_dir =
        Except.ok ([], "\n")) := by
  constructor
  · intro copies mtext h
    simp only [do_artifact] at h
    cases hl : artifactLoop matcher fsExists sys component_name root_dir
        ((descriptor.lookup component_name).getD []) [] [] with
    | error e => rw [hl] at h; exact absurd h (by simp)
    | ok pr =>
      obtain ⟨rps, cps⟩ := pr
      rw [hl] at h
      simp only [Except.ok.injEq, Prod.mk.injEq] at h
      have hrp := artifactLoop_ok_relpaths matcher fsExists sys component_name
        root_dir _ [] [] rps cps hl
      rw [List.nil_append] at hrp
      constructor
      · rw [← h.2, ← hrp]
      · intro hne
        rw [← h.2, ← hrp]
        rw [← hrp] at hne
        exact manifest_content_eq_spec rps hne
  · intro h
    simp only [do_artifact, h]
    rfl

/-- Witness for `c4_manifest` on a concrete two-record descriptor: the
manifest text is `a`, newline, `b`, newline. -/
theorem c4_manifest_witness :
    ("a\nb\n" : String) =
      manifest_content (contributing (fun _ => true) "Linux" "/r"
        ((([("c", [("a", emptyRec), ("b", emptyRec)])] :
            List (String × List (String × BasedirRecord))).lookup "c").getD [])) ∧
    (contributing (fun _ => true) "Linux" "/r"
        ((([("c", [("a", emptyRec), ("b", emptyRec)])] :
            List (String × List (String × BasedirRecord))).lookup "c").getD []) ≠ [] →
      ("a\nb\n" : String) =
        spec_manifest_content (contributing (fun _ => true) "Linux" "/r"
          ((([("c", [("a", emptyRec), ("b", emptyRec)])] :
              List (String × List (String × BasedirRecord))).lookup "c").getD []))) :=
  (c4_manifest (fun _ _ _ _ => []) (fun _ => true) "Linux"
    [("c", [("a", emptyRec), ("b", emptyRec)])] "c" "/r").1 [] "a\nb\n" (by decide)

/-- C5: a base-directory record whose `optional` flag resolves true for
the current platform and whose resolved base directory does not exist is
skipped entirely and without error: `do_artifact` behaves exactly as if
the record were absent from the descriptor (so it contributes no files to
the output tree), and its relative path does not appear among the
contributing paths that make up the manifest. -/
theorem c5_optional_skip (matcher : Matcher) (fsExists : String → Bool) (sys : String)
    (d1 d2 : List (String × List (String × BasedirRecord)))
    (component_name root_dir : String) (l1 l2 : List (String × BasedirRecord))
    (rp : String) (rec : BasedirRecord)
    (h1 : d1.lookup component_name = some (l1 ++ (rp, rec) :: l2))
    (h2 : d2.lookup component_name = some (l1 ++ l2))
    (hopt : evaluate_optional sys (rec.optional.getD PyValue.none) = true)
    (hex : fsExists (root_dir ++ "/" ++ rp) = false) :
    do_artifact matcher fsExists sys d1 component_name root_dir =
      do_artifact matcher fsExists sys d2 component_name root_dir ∧
    (rp ∉ (l1 ++ l2).map Prod.fst →
      rp ∉ contributing fsExists sys root_dir (l1 ++ (rp, rec) :: l2)) := by
  constructor
  · simp only [do_artifact, h1, h2, Option.getD_some]
    rw [artifactLoop_skip matcher fsExists sys component_name root_dir rp rec
      hopt hex l1 l2 [] []]
  · intro hmem hcontra
    rw [contributing_skip fsExists sys root_dir rp rec hopt hex l1 l2] at hcontra
    exact hmem (contributing_subset_keys fsExists sys root_dir (l1 ++ l2) rp hcontra)

/-- Record that is optional on the platform `linux` and otherwise has
every descriptor key absent. -/
def optRec : BasedirRecord :=
  ⟨Option.none, Option.none, Option.none, Option.none, some (PyValue.pystr "linux")⟩

/-- Witness for `c5_optional_skip`: on platform `Linux`, a record optional
for `linux` whose base directory `/r/x` does not exist is skipped, and the
artifact equals the one composed without that record. -/
theorem c5_optional_skip_witness :
    do_artifact (fun _ _ _ _ => [("f.txt", "/src/f.txt")]) (fun p => p != "/r/x")
        "Linux" [("c", [("x", optRec), ("y", emptyRec)])] "c" "/r" =
      do_artifact (fun _ _ _ _ => [("f.txt", "/src/f.txt")]) (fun p => p != "/r/x")
        "Linux" [("c", [("y", emptyRec)])] "c" "/r" ∧
    ("x" ∉ (([] : List (String × BasedirRecord)) ++ [("y", emptyRec)]).map Prod.fst →
      "x" ∉ contributing (fun p => p != "/r/x") "Linux" "/r"
        (([] : List (String × BasedirRecord)) ++ ("x", optRec) :: [("y", emptyRec)])) :=
  c5_optional_skip (fun _ _ _ _ => [("f.txt", "/src/f.txt")]) (fun p => p != "/r/x")
    "Linux" [("c", [("x", optRec), ("y", emptyRec)])] [("c", [("y", emptyRec)])]
    "c" "/r" [] [("y", emptyRec)] "x" optRec rfl rfl (by decide) (by decide)
